import Mathlib

/-!
Verification development for the blvm-commons benchmarking harness.

The repository consists of three Python scripts forming a benchmark
pipeline:

* `scripts/benchmark_bitcoin_core.py` — drives a Bitcoin Core process
  (the Reference System) through measured RPC workloads;
* `scripts/export_benchmarks.py` — parses Criterion statistics reports
  for BTCDecoded (the Alternative System) and exports canonical records;
* `scripts/compare_benchmarks.py` — parses Criterion reports, loads the
  Core export, and joins the two result sets into comparison records.

We shallowly embed the data model and the relevant functions.  Python
floats are modelled as rationals (ℚ), JSON values as an inductive type,
Python dicts as association lists with insert-or-replace assignment, and
Python exceptions as `Except` values.  Real-time measurement (calls to
`time.perf_counter`) is abstracted: a workload is modelled as a function
of the list of collected sample times, which is exactly the data the
reduction step consumes.
-/

namespace BlvmCommons

/-- JSON values as produced by `json.load` / consumed by `json.dump`.
Numbers are modelled as rationals. -/
inductive JVal where
  | jnum (q : ℚ)
  | jstr (s : String)
  | jbool (b : Bool)
  | jnull
  | jarr (elems : List JVal)
  | jobj (fields : List (String × JVal))

/-- Python exception kinds that the parsing code can raise internally
(all are caught by the surrounding try/except). -/
inductive PyErr where
  | typeError
  | keyError
deriving DecidableEq

/-- Association-list lookup returning the first binding for a key
(Python dict lookup; `json.load` produces unique keys). -/
def lookupKey {α : Type} : List (String × α) → String → Option α
  | [], _ => none
  | (k, v) :: rest, key => if k = key then some v else lookupKey rest key

/-- Python dict assignment `d[k] = v`: replace the binding in place if the
key is present, otherwise append (insertion order preserved). -/
def dictSet {α : Type} (l : List (String × α)) (k : String) (v : α) :
    List (String × α) :=
  if (l.map Prod.fst).contains k then
    l.map (fun p => if p.1 = k then (k, v) else p)
  else l ++ [(k, v)]

/-- The Python membership test `key in v`.  Dicts test key presence,
strings test substring containment (all keys used by the scripts are
non-empty literals), lists test element equality; numbers, booleans and
null raise `TypeError` (`argument of type ... is not iterable`). -/
def pyContains (key : String) : JVal → Except PyErr Bool
  | .jobj fields => .ok ((fields.map Prod.fst).contains key)
  | .jstr s => .ok ((s.splitOn key).length > 1)
  | .jarr elems =>
      .ok (elems.any (fun e => match e with | .jstr s => s = key | _ => false))
  | _ => .error .typeError

/-- The Python subscript `v[key]` with a string key: succeeds only on a
dict containing the key; raises `KeyError` on a dict missing it and
`TypeError` on every non-dict value. -/
def pyGet (key : String) : JVal → Except PyErr JVal
  | .jobj fields =>
      match lookupKey fields key with
      | some v => .ok v
      | none => .error .keyError
  | _ => .error .typeError

/-- The Python dict method `d.get(key)` / `d.get(key, default)` on a value
known to be a dict; raises on non-dict receivers (`AttributeError`,
collapsed into `typeError` here). -/
def pyDictGet (v : JVal) (key : String) : Except PyErr (Option JVal) :=
  match v with
  | .jobj fields => .ok (lookupKey fields key)
  | _ => .error .typeError

/-- Numeric coercion performed implicitly by Python arithmetic such as
`x / 1_000_000`: numbers are themselves, booleans are 0/1 (Python bools
are ints), everything else raises `TypeError`. -/
def pyToNum : JVal → Except PyErr ℚ
  | .jnum q => .ok q
  | .jbool b => .ok (if b then 1 else 0)
  | _ => .error .typeError

/-- One iteration of the `for benchmark_name, benchmark_data in
data.items()` loop shared (verbatim, up to the extracted statistics) by
the two `parse_criterion_results` functions: results accumulated by dict
assignment, exceptions propagated out of the loop. -/
def parseStep {σ : Type} (pE : JVal → Except PyErr (Option σ))
    (acc : Except PyErr (List (String × σ))) (e : String × JVal) :
    Except PyErr (List (String × σ)) :=
  match acc with
  | .error pe => .error pe
  | .ok results =>
      match pE e.2 with
      | .error pe => .error pe
      | .ok (some st) => .ok (dictSet results e.1 st)
      | .ok none => .ok results

/-- The common shell of the two `parse_criterion_results` functions:
`input = none` models an unreadable file (`open`/`json.load` raised); a
raised exception inside the loop is caught by the surrounding
try/except, which logs a warning and returns the empty dict; a non-dict
top level returns the empty dict without an exception. -/
def runParse {σ : Type} (pE : JVal → Except PyErr (Option σ))
    (input : Option JVal) : List (String × σ) :=
  match input with
  | some (.jobj entries) =>
      match entries.foldl (parseStep pE) (.ok []) with
      | .ok res => res
      | .error _ => []
  | some _ => []
  | none => []

namespace Compare

/-- The per-benchmark stats dict built by
`compare_benchmarks.parse_criterion_results` (lines 44–72).
`mean_ns` and `mean_ms` are always set; the other fields are set only
when the corresponding source keys are present (`none` = key absent). -/
structure CStats where
  mean_ns : ℚ
  mean_ms : ℚ
  lower_bound_ns : Option JVal
  upper_bound_ns : Option JVal
  min_ns : Option ℚ
  min_ms : Option ℚ
  max_ns : Option ℚ
  max_ms : Option ℚ
  median_ns : Option ℚ
  median_ms : Option ℚ
  throughput_ops_per_sec : Option ℚ
  samples : Option JVal

/-- The optional numeric sub-extraction pattern
`if key in d: x = d[key]; use x / 1_000_000`: `ok none` when the key is
absent, the numeric value when present, an exception when the guarded
lookup or the arithmetic raises. -/
def optNumField (key : String) (d : JVal) : Except PyErr (Option ℚ) :=
  match pyContains key d with
  | .error e => .error e
  | .ok false => .ok none
  | .ok true =>
      match pyGet key d with
      | .error e => .error e
      | .ok v =>
          match pyToNum v with
          | .error e => .error e
          | .ok q => .ok (some q)

/-- Processing of one `(benchmark_name, benchmark_data)` entry of the
report by `compare_benchmarks.parse_criterion_results`:
`ok none` = entry skipped, `ok (some st)` = stats extracted,
`error` = a Python exception escapes to the enclosing try/except. -/
def parseEntry (bd : JVal) : Except PyErr (Option CStats) :=
  match pyContains "mean" bd with
  | .error e => .error e
  | .ok false => .ok none
  | .ok true =>
    match pyGet "mean" bd with
    | .error e => .error e
    | .ok mean =>
      match pyContains "point_estimate" mean with
      | .error e => .error e
      | .ok false => .ok none
      | .ok true =>
        match pyGet "point_estimate" mean with
        | .error e => .error e
        | .ok peRaw =>
          match pyToNum peRaw with
          | .error e => .error e
          | .ok mean_ns =>
            match pyDictGet mean "confidence_interval" with
            | .error e => .error e
            | .ok civ =>
              match pyDictGet (civ.getD (.jobj [])) "lower_bound" with
              | .error e => .error e
              | .ok lower =>
                match pyDictGet (civ.getD (.jobj [])) "upper_bound" with
                | .error e => .error e
                | .ok upper =>
                  match optNumField "min" bd with
                  | .error e => .error e
                  | .ok minv =>
                    match optNumField "max" bd with
                    | .error e => .error e
                    | .ok maxv =>
                      match
                        ((match pyContains "median" bd with
                         | .error e => .error e
                         | .ok false => .ok none
                         | .ok true =>
                             match pyGet "median" bd with
                             | .error e => .error e
                             | .ok median => optNumField "point_estimate" median) :
                          Except PyErr (Option ℚ)) with
                      | .error e => .error e
                      | .ok medv =>
                        match pyContains "sample_count" bd with
                        | .error e => .error e
                        | .ok hasSamples =>
                          match
                            ((if hasSamples then
                               match pyGet "sample_count" bd with
                               | .error e => .error e
                               | .ok v => .ok (some v)
                             else .ok none) : Except PyErr (Option JVal)) with
                          | .error e => .error e
                          | .ok samples =>
                            .ok (some
                              { mean_ns := mean_ns
                                mean_ms := mean_ns / 1000000
                                lower_bound_ns := lower
                                upper_bound_ns := upper
                                min_ns := minv
                                min_ms := minv.map (fun q => q / 1000000)
                                max_ns := maxv
                                max_ms := maxv.map (fun q => q / 1000000)
                                median_ns := medv
                                median_ms := medv.map (fun q => q / 1000000)
                                throughput_ops_per_sec :=
                                  if mean_ns > 0 then
                                    some (1000000000 / mean_ns)
                                  else none
                                samples := samples })

/-- `compare_benchmarks.parse_criterion_results` (lines 21–81). -/
def parse_criterion_results (input : Option JVal) : List (String × CStats) :=
  runParse parseEntry input

end Compare

namespace Export

/-- The per-benchmark stats dict built by
`export_benchmarks.parse_criterion_results` (lines 66–87).  All six keys
are always present in the Python dict; the optional ones are initialised
to `None` and filled in when source data is available, so `none` here is
the Python value `None`. -/
structure EStats where
  mean_ms : ℚ
  mean_ns : ℚ
  min_ms : Option ℚ
  max_ms : Option ℚ
  samples : Option JVal
  throughput_ops_per_sec : Option ℚ

/-- Processing of one report entry by
`export_benchmarks.parse_criterion_results`. -/
def parseEntry (bd : JVal) : Except PyErr (Option EStats) :=
  match pyContains "mean" bd with
  | .error e => .error e
  | .ok false => .ok none
  | .ok true =>
    match pyGet "mean" bd with
    | .error e => .error e
    | .ok mean =>
      match pyContains "point_estimate" mean with
      | .error e => .error e
      | .ok false => .ok none
      | .ok true =>
        match pyGet "point_estimate" mean with
        | .error e => .error e
        | .ok peRaw =>
          match pyToNum peRaw with
          | .error e => .error e
          | .ok mean_ns =>
            match Compare.optNumField "min" bd with
            | .error e => .error e
            | .ok minv =>
              match Compare.optNumField "max" bd with
              | .error e => .error e
              | .ok maxv =>
                match pyContains "sample_count" bd with
                | .error e => .error e
                | .ok hasSamples =>
                  match
                    ((if hasSamples then
                       match pyGet "sample_count" bd with
                       | .error e => .error e
                       | .ok v => .ok (some v)
                     else .ok none) : Except PyErr (Option JVal)) with
                  | .error e => .error e
                  | .ok samples =>
                    .ok (some
                      { mean_ms := mean_ns / 1000000
                        mean_ns := mean_ns
                        min_ms := minv.map (fun q => q / 1000000)
                        max_ms := maxv.map (fun q => q / 1000000)
                        samples := samples
                        throughput_ops_per_sec :=
                          if mean_ns > 0 then
                            some (1000000000 / mean_ns)
                          else none })

/-- `export_benchmarks.parse_criterion_results` (lines 51–94; same
control structure as the compare-side parser, with fewer extracted
fields and the except branch logging to stderr). -/
def parse_criterion_results (input : Option JVal) : List (String × EStats) :=
  runParse parseEntry input

/-- One record of the `benchmarks` mapping emitted by
`export_benchmarks.export_benchmarks` (lines 136–154).  `none` on an
optional field means the key is omitted from the JSON object. -/
structure ExportRecord where
  mean_ms : ℚ
  min_ms : Option ℚ
  max_ms : Option ℚ
  samples : Option JVal
  throughput_ops_per_sec : Option ℚ
  original_name : String

/-- The closed name-mapping table of `export_benchmarks.py`
(lines 121–128). -/
def benchmark_mapping : List (String × String) :=
  [("check_transaction", "transaction_validation"),
   ("check_transaction_complex", "transaction_validation_complex"),
   ("sha256_1kb", "hash_operations_sha256"),
   ("double_sha256_1kb", "hash_operations_double_sha256"),
   ("connect_block", "block_validation"),
   ("connect_block_multi_tx", "block_validation_multi_tx")]

/-- A JSON null stored in the stats dict is the Python value `None`, so
the `is not None` check in `export_benchmarks` drops it. -/
def dropNull : Option JVal → Option JVal
  | some .jnull => none
  | v => v

/-- The body of the export loop for one parsed benchmark: name mapping
(with pass-through for unmapped names) plus the Core-compatible record
whose optional keys are added only when the parsed value `is not None`. -/
def toCoreFormat (name : String) (r : EStats) : String × ExportRecord :=
  ((lookupKey benchmark_mapping name).getD name,
   { mean_ms := r.mean_ms
     min_ms := r.min_ms
     max_ms := r.max_ms
     samples := dropNull r.samples
     throughput_ops_per_sec := r.throughput_ops_per_sec
     original_name := name })

/-- `export_benchmarks.export_benchmarks`: `none` models the
`sys.exit(1)` taken when parsing produced no results; otherwise the
`benchmarks` mapping of the output object (metadata and the `system`
field carry no comparison-relevant data). -/
def export_benchmarks (results : List (String × EStats)) :
    Option (List (String × ExportRecord)) :=
  if results.isEmpty then none
  else some (results.foldl
    (fun acc p =>
      let kr := toCoreFormat p.1 p.2
      dictSet acc kr.1 kr.2) [])

end Export

namespace CompareEngine

open BlvmCommons

/-- A BTCDecoded per-benchmark stats dict as read by
`compare_benchmarks.compare_common_metrics` through `.get` calls:
each field is `none` when the key is absent.  Stats dicts produced by
the compare-side parser always carry `mean_ms` and `mean_ns`. -/
structure AStats where
  mean_ms : Option ℚ
  mean_ns : Option ℚ
  throughput_ops_per_sec : Option ℚ
deriving DecidableEq

/-- `btdcoded_tx.get("mean_ms", btdcoded_tx.get("mean_ns", 0) / 1_000_000)`. -/
def AStats.getMeanMs (s : AStats) : ℚ :=
  s.mean_ms.getD (s.mean_ns.getD 0 / 1000000)

/-- `btdcoded_tx.get("throughput_ops_per_sec", 0)`. -/
def AStats.getThroughput (s : AStats) : ℚ :=
  s.throughput_ops_per_sec.getD 0

/-- One entry of the Core export `benchmarks` mapping as read by the
comparison engine; `mean_ms` is `none` when the key is absent (values
are taken to be numeric, as the code divides by them). -/
structure CoreStat where
  mean_ms : Option ℚ
deriving DecidableEq

/-- The loaded Bitcoin Core results object: `benchmarks = none` models a
JSON object without a `benchmarks` key (for example the empty dict that
`load_benchmark_results` returns on failure). -/
structure CoreResults where
  benchmarks : Option (List (String × CoreStat))

/-- The `comparison["btdcoded"]` dict: `consensus_proof` is present only
when a file of that name was parsed (the `reference_node` entry is never
read by `compare_common_metrics`). -/
structure BtcdResults where
  consensus_proof : Option (List (String × AStats))

/-- A record of the `comparison` output dict.  `none` on an optional
field means the key is absent from the emitted JSON object. -/
structure CompRecord where
  btdcoded_ms : ℚ
  core_ms : Option ℚ
  ratio : Option ℚ
  faster : Option String
  btdcoded_throughput : Option ℚ
  note : Option String
deriving DecidableEq

/-- The two-sided record literal that appears (three times, identically
up to the note) in `compare_common_metrics`:
ratio is `core_ms / btdcoded_ms if btdcoded_ms > 0 else 0` and faster is
`"BTCDecoded" if btdcoded_ms < core_ms else "Bitcoin Core"`. -/
def fullRecord (a : AStats) (core_ms : ℚ) (note : Option String) :
    CompRecord :=
  { btdcoded_ms := a.getMeanMs
    core_ms := some core_ms
    ratio := some (if a.getMeanMs > 0 then core_ms / a.getMeanMs else 0)
    faster := some (if a.getMeanMs < core_ms then "BTCDecoded" else "Bitcoin Core")
    btdcoded_throughput := some a.getThroughput
    note := note }

/-- The one-sided record literal of the block-validation else branch
(lines 187–193): BTCDecoded data only, plus the explanatory note. -/
def aOnlyRecord (a : AStats) : CompRecord :=
  { btdcoded_ms := a.getMeanMs
    core_ms := none
    ratio := none
    faster := none
    btdcoded_throughput := some a.getThroughput
    note := some "Core benchmark not available for comparison" }

/-- Lookup of `core["benchmarks"][key]["mean_ms"]` guarded by the three
`in` checks of the transaction/hash branches. -/
def coreBenchMean (core : CoreResults) (key : String) : Option ℚ :=
  match core.benchmarks with
  | none => none
  | some bs =>
      match lookupKey bs key with
      | none => none
      | some st => st.mean_ms

/-- The transaction-validation section of `compare_common_metrics`
(lines 127–142): a record is emitted only when A has
`check_transaction` and Core has `benchmarks.transaction_validation.mean_ms`. -/
def txComparison (cp : List (String × AStats)) (core : CoreResults) :
    List (String × CompRecord) :=
  match lookupKey cp "check_transaction" with
  | none => []
  | some a =>
      match coreBenchMean core "transaction_validation" with
      | none => []
      | some m => [("transaction_validation", fullRecord a m none)]

/-- The hash-operations section (lines 144–160): same guard structure as
the transaction section, with a fixed measurement-caveat note; there is
no fallback branch when the Core counterpart is missing. -/
def hashComparison (cp : List (String × AStats)) (core : CoreResults) :
    List (String × CompRecord) :=
  match lookupKey cp "sha256_1kb" with
  | none => []
  | some a =>
      match coreBenchMean core "hash_operations" with
      | none => []
      | some m =>
          [("hash_operations", fullRecord a m (some "Core measures cached getblockhash (database lookup), BTCDecoded measures actual SHA256 computation"))]

/-- One iteration of the block-validation loop (lines 170–193) for a key
`k` in the `block_benchmarks` table: if Core has `benchmarks` with a
`block_validation` entry, a two-sided record is emitted when that entry
has `mean_ms` (and nothing otherwise); if Core lacks `benchmarks` or the
`block_validation` key, a one-sided record with a note is emitted. -/
def blockComparisonFor (cp : List (String × AStats)) (core : CoreResults)
    (k : String) : List (String × CompRecord) :=
  match lookupKey cp k with
  | none => []
  | some a =>
      match core.benchmarks with
      | some bs =>
          match lookupKey bs "block_validation" with
          | some st =>
              match st.mean_ms with
              | some m => [("block_validation_" ++ k, fullRecord a m none)]
              | none => []
          | none => [("block_validation_" ++ k, aOnlyRecord a)]
      | none => [("block_validation_" ++ k, aOnlyRecord a)]

/-- The block-validation section (lines 162–193): the loop over the
`block_benchmarks` table, whose two entries map each key to itself. -/
def blockComparison (cp : List (String × AStats)) (core : CoreResults) :
    List (String × CompRecord) :=
  blockComparisonFor cp core "connect_block" ++
    blockComparisonFor cp core "connect_block_multi_tx"

/-- `compare_benchmarks.compare_common_metrics`: the comparison dict is
assembled section by section; all emitted keys are distinct, so the dict
is faithfully modelled by list concatenation. -/
def compare_common_metrics (btdcoded : BtcdResults) (core : CoreResults) :
    List (String × CompRecord) :=
  match btdcoded.consensus_proof with
  | none => []
  | some cp =>
      txComparison cp core ++ hashComparison cp core ++ blockComparison cp core

end CompareEngine

namespace Bench

/-- The observable outcome of the `subprocess.run` call inside
`rpc_call`: either the 30-second timeout expired
(`subprocess.TimeoutExpired`) or the client completed with a return code
and textual output. -/
inductive RpcOutcome where
  | timeout
  | completed (returncode : Int) (stdout : String)

/-- A value returned by `rpc_call`: decoded JSON, or the stripped raw
text when JSON decoding failed. -/
inductive RpcValue where
  | json (v : JVal)
  | text (s : String)

/-- `benchmark_bitcoin_core.rpc_call` (lines 102–124), parameterised by
the JSON decoder (`json.loads`, `none` = `JSONDecodeError`) and by the
subprocess outcome.  Returns `none` (Python `None`) on timeout and on
any non-zero return code. -/
def rpc_call (decode : String → Option JVal) (o : RpcOutcome) :
    Option RpcValue :=
  match o with
  | .timeout => none
  | .completed rc out =>
      if rc = 0 then
        match decode out with
        | some j => some (.json j)
        | none => some (.text out.trim)
      else none

/-- The arithmetic mean `sum(times) / len(times)` over rationals. -/
def listMean (l : List ℚ) : ℚ := l.sum / l.length

/-- Python `min(t :: ts)` (left fold of binary min over a non-empty
list). -/
def listMin (t : ℚ) (ts : List ℚ) : ℚ := ts.foldl min t

/-- Python `max(t :: ts)`. -/
def listMax (t : ℚ) (ts : List ℚ) : ℚ := ts.foldl max t

/-- The shared tail of every workload: the
`if not times: return {"error": "No valid measurements"}` guard followed
by the four-field stats dict literal (mean, min, max, sample count). -/
def measurementDict (times : List ℚ) : List (String × JVal) :=
  match times with
  | [] => [("error", .jstr "No valid measurements")]
  | t :: ts =>
      [("mean_ms", .jnum (listMean (t :: ts))),
       ("min_ms", .jnum (listMin t ts)),
       ("max_ms", .jnum (listMax t ts)),
       ("samples", .jnum ((t :: ts).length : ℚ))]

/-- How far the setup phase of the transaction-validation workload got.
The first four constructors are the early `return {"error": ...}` exits
(lines 131–155); `measured times` carries the sample times collected by
the timing loop (a sample is appended only when the `testmempoolaccept`
call returned a non-empty truthy result; real-time measurement itself is
abstracted into the collected values). -/
inductive TxSetup where
  | genFailed
  | noUtxos
  | createFailed
  | signFailed
  | measured (times : List ℚ)

/-- `benchmark_bitcoin_core.benchmark_transaction_validation`
(lines 126–174). -/
def benchmark_transaction_validation : TxSetup → List (String × JVal)
  | .genFailed => [("error", .jstr "Failed to generate blocks")]
  | .noUtxos => [("error", .jstr "No UTXOs available")]
  | .createFailed => [("error", .jstr "Failed to create raw transaction")]
  | .signFailed => [("error", .jstr "Failed to sign transaction")]
  | .measured times => measurementDict times

/-- `benchmark_bitcoin_core.benchmark_block_validation` (lines 176–198):
no early error exits; the result is the reduction of the collected
sample times. -/
def benchmark_block_validation (times : List ℚ) : List (String × JVal) :=
  measurementDict times

/-- `benchmark_bitcoin_core.benchmark_hash_operations` (lines 200–229):
as above, plus a proxy-measurement note appended to the non-empty stats
dict. -/
def benchmark_hash_operations (times : List ℚ) : List (String × JVal) :=
  match times with
  | [] => measurementDict []
  | t :: ts =>
      measurementDict (t :: ts) ++
        [("note", .jstr "Using getblockhash as proxy for SHA256 operations")]

/-- The outcome of `start_bitcoind` (lines 35–80).
`binaryNotFound`: the executable check failed, nothing was launched.
`launchFailed`: `subprocess.run` raised `CalledProcessError`, the daemon
did not start.  `unresponsive`: the daemon was launched but never
answered the 20-second RPC poll, and `start_bitcoind` returned `False`.
`started`: the poll succeeded and `start_bitcoind` returned `True`. -/
inductive StartOutcome where
  | binaryNotFound
  | launchFailed
  | unresponsive
  | started
deriving DecidableEq

/-- Whether the bitcoind process is actually running after
`start_bitcoind` returned: in the `unresponsive` case the daemon was
launched even though the function reports failure. -/
def StartOutcome.processStarted : StartOutcome → Bool
  | .binaryNotFound => false
  | .launchFailed => false
  | .unresponsive => true
  | .started => true

/-- The value `run_all_benchmarks` returns: either the
`{"error": msg}` dict of the failed-start paths, or the results object
(restricted to its `benchmarks` mapping; the `timestamp` and `system`
fields carry no claim-relevant data). -/
inductive RunReturn where
  | errorDict (msg : String)
  | results (benchmarks : List (String × List (String × JVal)))

/-- What a run of `run_all_benchmarks` did: the returned value (`.error`
models a Python exception propagating out of a workload), and whether
the `finally` block — `stop_bitcoind()` plus conditional removal of the
regtest directory — was reached. -/
structure RunResult where
  ret : Except String RunReturn
  stopAttempted : Bool
  dirCleanupAttempted : Bool

/-- `benchmark_bitcoin_core.run_all_benchmarks` (lines 231–263),
parameterised by the start outcome, by the result of the post-start
readiness re-check loop (lines 245–250), and by the three workload runs
(`.error` = the workload raised).  The `try` body runs only after
`start_bitcoind()` returned `True`; its `finally` block runs on every
exit from the body, including the readiness-re-check early return and a
propagating workload exception.  When `start_bitcoind()` returns
`False`, the function returns the error dict before the `try`, so no
cleanup is attempted. -/
def run_all_benchmarks (start : StartOutcome) (readyRecheck : Bool)
    (txRun blockRun hashRun : Except String (List (String × JVal))) :
    RunResult :=
  match start with
  | .started =>
      if readyRecheck then
        match txRun with
        | .error e => ⟨.error e, true, true⟩
        | .ok tx =>
            match blockRun with
            | .error e => ⟨.error e, true, true⟩
            | .ok blk =>
                match hashRun with
                | .error e => ⟨.error e, true, true⟩
                | .ok hs =>
                    ⟨.ok (.results
                        [("transaction_validation", tx),
                         ("block_validation", blk),
                         ("hash_operations", hs)]), true, true⟩
      else ⟨.ok (.errorDict "bitcoind not responding after start"), true, true⟩
  | _ => ⟨.ok (.errorDict "Failed to start bitcoind"), false, false⟩

end Bench

end BlvmCommons

/-! ## General lemmas about the embedded operations -/
namespace BlvmCommons

theorem lookupKey_append_some {α : Type} {l₁ l₂ : List (String × α)} {k : String}
    {v : α} (h : lookupKey l₁ k = some v) : lookupKey (l₁ ++ l₂) k = some v := by
  induction l₁ with
  | nil => simp [lookupKey] at h
  | cons p t ih =>
      rw [List.cons_append]
      simp only [lookupKey] at h ⊢
      split at h
      · rwa [if_pos (by assumption)]
      · rw [if_neg (by assumption)]
        exact ih h

theorem lookupKey_append_none {α : Type} {l₁ : List (String × α)} (l₂ : List (String × α))
    {k : String} (h : lookupKey l₁ k = none) :
    lookupKey (l₁ ++ l₂) k = lookupKey l₂ k := by
  induction l₁ with
  | nil => simp
  | cons p t ih =>
      rw [List.cons_append]
      simp only [lookupKey] at h ⊢
      split at h
      · exact absurd h (by simp)
      · rw [if_neg (by assumption)]
        exact ih h

theorem mem_of_lookupKey {α : Type} {l : List (String × α)} {k : String} {v : α}
    (h : lookupKey l k = some v) : (k, v) ∈ l := by
  induction l with
  | nil => simp [lookupKey] at h
  | cons p t ih =>
      simp only [lookupKey] at h
      split at h
      · have hp : p = (k, v) := by
          obtain ⟨p1, p2⟩ := p
          simp_all
        rw [← hp]
        exact List.mem_cons_self p t
      · exact List.mem_cons_of_mem p (ih h)

theorem contains_of_lookupKey_some {α : Type} {l : List (String × α)} {k : String}
    {v : α} (h : lookupKey l k = some v) : (l.map Prod.fst).contains k = true := by
  have hm : (k, v) ∈ l := mem_of_lookupKey h
  have hk : k ∈ l.map Prod.fst := by
    simpa using List.mem_map_of_mem Prod.fst hm
  exact List.elem_eq_true_of_mem hk

theorem contains_of_lookupKey_none {α : Type} {l : List (String × α)} {k : String}
    (h : lookupKey l k = none) : (l.map Prod.fst).contains k = false := by
  induction l with
  | nil => simp
  | cons p t ih =>
      simp only [lookupKey] at h
      split at h
      · exact absurd h (by simp)
      · have hne : ¬ p.1 = k := by assumption
        have ht := ih h
        simp only [List.map_cons, List.contains_cons, Bool.or_eq_false_iff]
        constructor
        · simp only [beq_eq_false_iff_ne, ne_eq]
          intro hk
          exact hne hk.symm
        · exact ht

theorem dictSet_mem {α : Type} {l : List (String × α)} {k : String} {v : α}
    {p : String × α} (h : p ∈ dictSet l k v) : p ∈ l ∨ p.2 = v := by
  unfold dictSet at h
  split at h
  · rcases List.mem_map.1 h with ⟨q, hq, hpq⟩
    by_cases hk : q.1 = k
    · right
      rw [if_pos hk] at hpq
      rw [← hpq]
    · left
      rw [if_neg hk] at hpq
      exact hpq ▸ hq
  · rcases List.mem_append.1 h with h1 | h1
    · left; exact h1
    · right
      simp at h1
      rw [h1]

end BlvmCommons

namespace BlvmCommons

theorem parseStep_error {σ : Type} (pE : JVal → Except PyErr (Option σ))
    (pe : PyErr) (e : String × JVal) :
    parseStep pE (.error pe) e = .error pe := rfl

theorem foldl_parseStep_error {σ : Type} (pE : JVal → Except PyErr (Option σ))
    (pe : PyErr) (l : List (String × JVal)) :
    l.foldl (parseStep pE) (.error pe) = .error pe := by
  induction l with
  | nil => rfl
  | cons e t ih => rw [List.foldl_cons, parseStep_error]; exact ih

theorem parseStep_skip {σ : Type} {pE : JVal → Except PyErr (Option σ)}
    {e : String × JVal} (h : pE e.2 = .ok none)
    (acc : Except PyErr (List (String × σ))) : parseStep pE acc e = acc := by
  unfold parseStep
  cases acc with
  | error pe => rfl
  | ok results => rw [h]

theorem parseStep_ok_some {σ : Type} {pE : JVal → Except PyErr (Option σ)}
    {e : String × JVal} {st : σ} (h : pE e.2 = .ok (some st))
    (results : List (String × σ)) :
    parseStep pE (.ok results) e = .ok (dictSet results e.1 st) := by
  unfold parseStep
  rw [h]

theorem parseStep_ok_err {σ : Type} {pE : JVal → Except PyErr (Option σ)}
    {e : String × JVal} {pe : PyErr} (h : pE e.2 = .error pe)
    (results : List (String × σ)) :
    parseStep pE (.ok results) e = .error pe := by
  unfold parseStep
  rw [h]

theorem foldl_parseStep_skip {σ : Type} {pE : JVal → Except PyErr (Option σ)}
    {e : String × JVal} (h : pE e.2 = .ok none)
    (pre post : List (String × JVal)) (acc : Except PyErr (List (String × σ))) :
    (pre ++ e :: post).foldl (parseStep pE) acc =
      (pre ++ post).foldl (parseStep pE) acc := by
  rw [List.foldl_append, List.foldl_append, List.foldl_cons, parseStep_skip h]

theorem runParse_skip {σ : Type} {pE : JVal → Except PyErr (Option σ)}
    {e : String × JVal} (h : pE e.2 = .ok none)
    (pre post : List (String × JVal)) :
    runParse pE (some (.jobj (pre ++ e :: post))) =
      runParse pE (some (.jobj (pre ++ post))) := by
  simp only [runParse]
  rw [foldl_parseStep_skip h]

theorem foldl_parseStep_err_of_mem {σ : Type} {pE : JVal → Except PyErr (Option σ)}
    {l : List (String × JVal)} {n : String} {bd : JVal} {pe : PyErr}
    (hmem : (n, bd) ∈ l) (hbd : pE bd = .error pe) :
    ∀ init : List (String × σ), ∃ pe2,
      l.foldl (parseStep pE) (.ok init) = .error pe2 := by
  induction l with
  | nil => simp at hmem
  | cons e t ih =>
      intro init
      rw [List.foldl_cons]
      rcases List.mem_cons.1 hmem with he | ht
      · subst he
        rw [parseStep_ok_err hbd]
        exact ⟨pe, foldl_parseStep_error pE pe t⟩
      · match hpe : pE e.2 with
        | .error pe3 =>
            rw [parseStep_ok_err hpe]
            exact ⟨pe3, foldl_parseStep_error pE pe3 t⟩
        | .ok (some st) =>
            rw [parseStep_ok_some hpe]
            exact ih ht (dictSet init e.1 st)
        | .ok none =>
            rw [parseStep_skip hpe]
            exact ih ht init

theorem runParse_empty_of_err {σ : Type} {pE : JVal → Except PyErr (Option σ)}
    {entries : List (String × JVal)} {n : String} {bd : JVal} {pe : PyErr}
    (hmem : (n, bd) ∈ entries) (hbd : pE bd = .error pe) :
    runParse pE (some (.jobj entries)) = [] := by
  simp only [runParse]
  obtain ⟨pe2, h2⟩ := foldl_parseStep_err_of_mem hmem hbd []
  rw [h2]

theorem foldl_parseStep_inv {σ : Type} {pE : JVal → Except PyErr (Option σ)}
    (P : σ → Prop) (hP : ∀ bd st, pE bd = .ok (some st) → P st) :
    ∀ (entries : List (String × JVal)) (init : List (String × σ)),
      (∀ p ∈ init, P p.2) →
      ∀ res, entries.foldl (parseStep pE) (.ok init) = .ok res →
        ∀ p ∈ res, P p.2 := by
  intro entries
  induction entries with
  | nil =>
      intro init hinit res hres
      rw [List.foldl_nil] at hres
      injection hres with h2
      exact h2 ▸ hinit
  | cons e t ih =>
      intro init hinit res hres
      rw [List.foldl_cons] at hres
      revert hres
      match hpe : pE e.2 with
      | .error pe2 =>
          intro hres
          rw [parseStep_ok_err hpe, foldl_parseStep_error] at hres
          exact absurd hres (by simp)
      | .ok (some st) =>
          intro hres
          rw [parseStep_ok_some hpe] at hres
          refine ih (dictSet init e.1 st) ?_ res hres
          intro p hp
          rcases dictSet_mem hp with h1 | h1
          · exact hinit p h1
          · rw [h1]
            exact hP e.2 st hpe
      | .ok none =>
          intro hres
          rw [parseStep_skip hpe] at hres
          exact ih init hinit res hres

theorem runParse_inv {σ : Type} {pE : JVal → Except PyErr (Option σ)}
    (P : σ → Prop) (hP : ∀ bd st, pE bd = .ok (some st) → P st)
    {input : Option JVal} {k : String} {st : σ}
    (h : lookupKey (runParse pE input) k = some st) : P st := by
  simp only [runParse] at h
  match input with
  | none => simp [lookupKey] at h
  | some (.jnum q) => simp [lookupKey] at h
  | some (.jstr s) => simp [lookupKey] at h
  | some (.jbool b) => simp [lookupKey] at h
  | some .jnull => simp [lookupKey] at h
  | some (.jarr es) => simp [lookupKey] at h
  | some (.jobj entries) =>
      dsimp only at h
      match hf : entries.foldl (parseStep pE) (.ok []) with
      | .error pe =>
          rw [hf] at h
          simp [lookupKey] at h
      | .ok res =>
          rw [hf] at h
          exact foldl_parseStep_inv P hP entries [] (by simp) res hf (k, st)
            (mem_of_lookupKey h)

end BlvmCommons

namespace BlvmCommons

theorem pyContains_of_lookup_none {fs : List (String × JVal)} {k : String}
    (h : lookupKey fs k = none) : pyContains k (.jobj fs) = .ok false := by
  show Except.ok ((fs.map Prod.fst).contains k) = .ok false
  rw [contains_of_lookupKey_none h]

theorem pyContains_of_lookup_some {fs : List (String × JVal)} {k : String}
    {v : JVal} (h : lookupKey fs k = some v) : pyContains k (.jobj fs) = .ok true := by
  show Except.ok ((fs.map Prod.fst).contains k) = .ok true
  rw [contains_of_lookupKey_some h]

theorem compare_parseEntry_noMean {fs : List (String × JVal)}
    (h : lookupKey fs "mean" = none) :
    Compare.parseEntry (.jobj fs) = .ok none := by
  unfold Compare.parseEntry
  rw [pyContains_of_lookup_none h]

theorem compare_parseEntry_noPE {fs ms : List (String × JVal)}
    (hm : lookupKey fs "mean" = some (.jobj ms))
    (hp : lookupKey ms "point_estimate" = none) :
    Compare.parseEntry (.jobj fs) = .ok none := by
  unfold Compare.parseEntry
  rw [pyContains_of_lookup_some hm]
  simp only [pyGet, hm]
  rw [pyContains_of_lookup_none hp]

theorem compare_parseEntry_scalar {bd : JVal}
    (h : bd = .jnull ∨ (∃ q, bd = .jnum q) ∨ (∃ b, bd = .jbool b)) :
    ∃ pe, Compare.parseEntry bd = .error pe := by
  rcases h with h | ⟨q, h⟩ | ⟨b, h⟩ <;> subst h <;>
    exact ⟨.typeError, rfl⟩

theorem export_parseEntry_scalar {bd : JVal}
    (h : bd = .jnull ∨ (∃ q, bd = .jnum q) ∨ (∃ b, bd = .jbool b)) :
    ∃ pe, Export.parseEntry bd = .error pe := by
  rcases h with h | ⟨q, h⟩ | ⟨b, h⟩ <;> subst h <;>
    exact ⟨.typeError, rfl⟩

end BlvmCommons

namespace BlvmCommons

theorem compare_parseEntry_throughput {bd : JVal} {st : Compare.CStats}
    (h : Compare.parseEntry bd = .ok (some st)) :
    st.mean_ms = st.mean_ns / 1000000 ∧
    (0 < st.mean_ns → st.throughput_ops_per_sec = some (1000000000 / st.mean_ns)) ∧
    (st.mean_ns ≤ 0 → st.throughput_ops_per_sec = none) := by
  unfold Compare.parseEntry at h
  repeat' split at h
  all_goals try exact Except.noConfusion h
  all_goals injection h with h1
  all_goals try exact Option.noConfusion h1
  all_goals injection h1 with h2
  all_goals subst h2
  all_goals refine ⟨rfl, fun hq => ?_, fun hq => ?_⟩
  all_goals first
    | rfl
    | (exfalso; linarith)

theorem export_parseEntry_throughput {bd : JVal} {st : Export.EStats}
    (h : Export.parseEntry bd = .ok (some st)) :
    st.mean_ms = st.mean_ns / 1000000 ∧
    (0 < st.mean_ns → st.throughput_ops_per_sec = some (1000000000 / st.mean_ns)) ∧
    (st.mean_ns ≤ 0 → st.throughput_ops_per_sec = none) := by
  unfold Export.parseEntry at h
  repeat' split at h
  all_goals try exact Except.noConfusion h
  all_goals injection h with h1
  all_goals try exact Option.noConfusion h1
  all_goals injection h1 with h2
  all_goals subst h2
  all_goals refine ⟨rfl, fun hq => ?_, fun hq => ?_⟩
  all_goals first
    | rfl
    | (exfalso; linarith)

end BlvmCommons

namespace BlvmCommons
namespace Bench

theorem foldl_min_le_init (t : ℚ) (ts : List ℚ) : ts.foldl min t ≤ t := by
  induction ts generalizing t with
  | nil => exact le_refl t
  | cons u us ih =>
      rw [List.foldl_cons]
      exact le_trans (ih (min t u)) (min_le_left t u)

theorem foldl_min_le_mem (t : ℚ) (ts : List ℚ) : ∀ x ∈ ts, ts.foldl min t ≤ x := by
  induction ts generalizing t with
  | nil => intro x hx; simp at hx
  | cons u us ih =>
      intro x hx
      rw [List.foldl_cons]
      rcases List.mem_cons.1 hx with hx | hx
      · subst hx
        exact le_trans (foldl_min_le_init (min t x) us) (min_le_right t x)
      · exact ih (min t u) x hx

theorem foldl_min_mem (t : ℚ) (ts : List ℚ) : ts.foldl min t ∈ t :: ts := by
  induction ts generalizing t with
  | nil => simp
  | cons u us ih =>
      rw [List.foldl_cons]
      have h := ih (min t u)
      rcases List.mem_cons.1 h with h | h
      · rcases min_choice t u with hc | hc
        · rw [h, hc]
          exact List.mem_cons_self t (u :: us)
        · rw [h, hc]
          exact List.mem_cons_of_mem t (List.mem_cons_self u us)
      · exact List.mem_cons_of_mem t (List.mem_cons_of_mem u h)

theorem length_mul_foldl_min_le_sum (t : ℚ) (ts : List ℚ) :
    (((t :: ts).length : ℚ)) * (ts.foldl min t) ≤ (t :: ts).sum := by
  induction ts generalizing t with
  | nil => simp
  | cons u us ih =>
      have ih2 := ih (min t u)
      have h1 : us.foldl min (min t u) ≤ min t u := foldl_min_le_init (min t u) us
      have h2 : min t u ≤ t := min_le_left t u
      have h3 : min t u ≤ u := min_le_right t u
      rw [List.foldl_cons, List.sum_cons, List.sum_cons]
      rw [List.sum_cons] at ih2
      have hlen : (((t :: u :: us).length : ℚ)) = ((((min t u) :: us).length : ℚ)) + 1 := by
        push_cast [List.length_cons]
        ring
      rw [hlen]
      have expand : ((((min t u) :: us).length : ℚ) + 1) * (us.foldl min (min t u)) =
          (((min t u) :: us).length : ℚ) * (us.foldl min (min t u)) +
            us.foldl min (min t u) := by ring
      rw [expand]
      linarith

theorem foldl_max_init_le (t : ℚ) (ts : List ℚ) : t ≤ ts.foldl max t := by
  induction ts generalizing t with
  | nil => exact le_refl t
  | cons u us ih =>
      rw [List.foldl_cons]
      exact le_trans (le_max_left t u) (ih (max t u))

theorem mem_le_foldl_max (t : ℚ) (ts : List ℚ) : ∀ x ∈ ts, x ≤ ts.foldl max t := by
  induction ts generalizing t with
  | nil => intro x hx; simp at hx
  | cons u us ih =>
      intro x hx
      rw [List.foldl_cons]
      rcases List.mem_cons.1 hx with hx | hx
      · subst hx
        exact le_trans (le_max_right t x) (foldl_max_init_le (max t x) us)
      · exact ih (max t u) x hx

theorem foldl_max_mem (t : ℚ) (ts : List ℚ) : ts.foldl max t ∈ t :: ts := by
  induction ts generalizing t with
  | nil => simp
  | cons u us ih =>
      rw [List.foldl_cons]
      have h := ih (max t u)
      rcases List.mem_cons.1 h with h | h
      · rcases max_choice t u with hc | hc
        · rw [h, hc]
          exact List.mem_cons_self t (u :: us)
        · rw [h, hc]
          exact List.mem_cons_of_mem t (List.mem_cons_self u us)
      · exact List.mem_cons_of_mem t (List.mem_cons_of_mem u h)

theorem sum_le_length_mul_foldl_max (t : ℚ) (ts : List ℚ) :
    (t :: ts).sum ≤ (((t :: ts).length : ℚ)) * (ts.foldl max t) := by
  induction ts generalizing t with
  | nil => simp
  | cons u us ih =>
      have ih2 := ih (max t u)
      have h1 : max t u ≤ us.foldl max (max t u) := foldl_max_init_le (max t u) us
      have h2 : t ≤ max t u := le_max_left t u
      have h3 : u ≤ max t u := le_max_right t u
      rw [List.foldl_cons, List.sum_cons, List.sum_cons]
      rw [List.sum_cons] at ih2
      have hlen : (((t :: u :: us).length : ℚ)) = ((((max t u) :: us).length : ℚ)) + 1 := by
        push_cast [List.length_cons]
        ring
      rw [hlen]
      have expand : ((((max t u) :: us).length : ℚ) + 1) * (us.foldl max (max t u)) =
          (((max t u) :: us).length : ℚ) * (us.foldl max (max t u)) +
            us.foldl max (max t u) := by ring
      rw [expand]
      linarith

theorem listMin_le_listMean (t : ℚ) (ts : List ℚ) :
    listMin t ts ≤ listMean (t :: ts) := by
  unfold listMin listMean
  rw [le_div_iff₀ (by push_cast [List.length_cons]; positivity)]
  rw [mul_comm]
  exact length_mul_foldl_min_le_sum t ts

theorem listMean_le_listMax (t : ℚ) (ts : List ℚ) :
    listMean (t :: ts) ≤ listMax t ts := by
  unfold listMax listMean
  rw [div_le_iff₀ (by push_cast [List.length_cons]; positivity)]
  rw [mul_comm]
  exact sum_le_length_mul_foldl_max t ts

end Bench
end BlvmCommons

/-! ## Claim theorems -/

namespace BlvmCommons

/-- C9: for every remote call, `rpc_call` returns no value when the
underlying client exits with non-zero status or when the per-call
timeout expires — never raising to the caller — and on a zero-status
completion the textual output is decoded as JSON when possible,
otherwise the stripped raw text is returned as-is. -/
theorem C9_rpc_call_failure_modes (decode : String → Option JVal)
    (rc : Int) (out : String) :
    Bench.rpc_call decode .timeout = none ∧
    (rc ≠ 0 → Bench.rpc_call decode (.completed rc out) = none) ∧
    (rc = 0 → Bench.rpc_call decode (.completed rc out) =
       some (match decode out with
             | some j => .json j
             | none => .text out.trim)) := by
  refine ⟨rfl, fun h => ?_, fun h => ?_⟩
  · simp [Bench.rpc_call, h]
  · subst h
    cases hd : decode out <;> simp [Bench.rpc_call, hd]

/-- Witness for C9 at a concrete decoder and outcomes. -/
theorem C9_rpc_call_failure_modes_witness :
    Bench.rpc_call (fun _ => none) .timeout = none ∧
    Bench.rpc_call (fun _ => none) (.completed 1 "x") = none ∧
    Bench.rpc_call (fun _ => none) (.completed 0 "y") =
      some (.text ("y".trim)) := by
  obtain ⟨h1, h2, _⟩ := C9_rpc_call_failure_modes (fun _ => none) 1 "x"
  obtain ⟨_, _, h6⟩ := C9_rpc_call_failure_modes (fun _ => none) 0 "y"
  exact ⟨h1, h2 (by decide), h6 rfl⟩

/-- C8: every benchmark workload returns an error object — not a
statistics record — when zero samples were collected, and such a
per-workload error does not abort the sibling workloads: the results
mapping still carries each sibling workload with its own result. -/
theorem C8_empty_measurement_error (bt ht : List ℚ) :
    (Bench.benchmark_transaction_validation (.measured []) =
        [("error", .jstr "No valid measurements")] ∧
     lookupKey (Bench.benchmark_transaction_validation (.measured []))
       "mean_ms" = none) ∧
    (Bench.benchmark_block_validation [] =
        [("error", .jstr "No valid measurements")] ∧
     lookupKey (Bench.benchmark_block_validation []) "mean_ms" = none) ∧
    (Bench.benchmark_hash_operations [] =
        [("error", .jstr "No valid measurements")] ∧
     lookupKey (Bench.benchmark_hash_operations []) "mean_ms" = none) ∧
    (Bench.run_all_benchmarks .started true
        (.ok (Bench.benchmark_transaction_validation (.measured [])))
        (.ok (Bench.benchmark_block_validation bt))
        (.ok (Bench.benchmark_hash_operations ht))).ret =
      .ok (.results
        [("transaction_validation",
          Bench.benchmark_transaction_validation (.measured [])),
         ("block_validation", Bench.benchmark_block_validation bt),
         ("hash_operations", Bench.benchmark_hash_operations ht)]) := by
  exact ⟨⟨rfl, rfl⟩, ⟨rfl, rfl⟩, ⟨rfl, rfl⟩, rfl⟩

/-- C2 counterexample: in the started-but-unresponsive case the daemon
process was started, yet `run_all_benchmarks` aborts with the error dict
without attempting `stop_bitcoind` or removal of the regtest
directory. -/
theorem C2_cleanup_counterexample :
    Bench.StartOutcome.processStarted .unresponsive = true ∧
    (Bench.run_all_benchmarks .unresponsive true
        (.ok []) (.ok []) (.ok [])).stopAttempted = false ∧
    (Bench.run_all_benchmarks .unresponsive true
        (.ok []) (.ok []) (.ok [])).dirCleanupAttempted = false ∧
    (Bench.run_all_benchmarks .unresponsive true
        (.ok []) (.ok []) (.ok [])).ret =
      .ok (.errorDict "Failed to start bitcoind") := by
  exact ⟨rfl, rfl, rfl, rfl⟩

/-- C2 (amended): cleanup — stop plus regtest-directory removal — is
attempted on every exit path of the benchmarking try block after
`start_bitcoind` succeeded, including when a workload raises and when
the post-start readiness re-check fails; but when `start_bitcoind`
itself reports failure, including the started-but-unresponsive case in
which the daemon is already running, the phase aborts without attempting
cleanup. -/
theorem C2_cleanup_on_try_paths (ready : Bool)
    (w1 w2 w3 : Except String (List (String × JVal))) :
    ((Bench.run_all_benchmarks .started ready w1 w2 w3).stopAttempted = true ∧
     (Bench.run_all_benchmarks .started ready w1 w2 w3).dirCleanupAttempted
       = true) ∧
    ((Bench.run_all_benchmarks .unresponsive ready w1 w2 w3).stopAttempted
       = false ∧
     (Bench.run_all_benchmarks .unresponsive ready w1 w2 w3).dirCleanupAttempted
       = false ∧
     Bench.StartOutcome.processStarted .unresponsive = true) := by
  cases ready <;> cases w1 <;> cases w2 <;> cases w3 <;>
    exact ⟨⟨rfl, rfl⟩, rfl, rfl, rfl⟩

end BlvmCommons

namespace BlvmCommons

/-- C6: for every non-empty list of collected sample times, the workload
reduction emits `mean_ms` equal to the arithmetic mean of the samples,
`min_ms` equal to their minimum and `max_ms` equal to their maximum
(hence `min_ms ≤ mean_ms ≤ max_ms`), and emits no median or
confidence-interval fields; the same dict is what the transaction and
block workloads return, and the hash workload adds only a note. -/
theorem C6_reduction_mean_min_max (t : ℚ) (ts : List ℚ) :
    lookupKey (Bench.measurementDict (t :: ts)) "mean_ms" =
      some (.jnum ((t :: ts).sum / ((t :: ts).length : ℚ))) ∧
    lookupKey (Bench.measurementDict (t :: ts)) "min_ms" =
      some (.jnum (Bench.listMin t ts)) ∧
    lookupKey (Bench.measurementDict (t :: ts)) "max_ms" =
      some (.jnum (Bench.listMax t ts)) ∧
    Bench.listMin t ts ∈ (t :: ts) ∧
    (∀ x ∈ (t :: ts), Bench.listMin t ts ≤ x) ∧
    Bench.listMax t ts ∈ (t :: ts) ∧
    (∀ x ∈ (t :: ts), x ≤ Bench.listMax t ts) ∧
    Bench.listMin t ts ≤ Bench.listMean (t :: ts) ∧
    Bench.listMean (t :: ts) ≤ Bench.listMax t ts ∧
    lookupKey (Bench.measurementDict (t :: ts)) "median_ms" = none ∧
    lookupKey (Bench.measurementDict (t :: ts)) "confidence_lower_ms" = none ∧
    lookupKey (Bench.measurementDict (t :: ts)) "confidence_upper_ms" = none ∧
    Bench.benchmark_transaction_validation (.measured (t :: ts)) =
      Bench.measurementDict (t :: ts) ∧
    Bench.benchmark_block_validation (t :: ts) =
      Bench.measurementDict (t :: ts) ∧
    lookupKey (Bench.benchmark_hash_operations (t :: ts)) "median_ms" = none := by
  refine ⟨rfl, rfl, rfl, Bench.foldl_min_mem t ts, ?_, Bench.foldl_max_mem t ts,
    ?_, Bench.listMin_le_listMean t ts, Bench.listMean_le_listMax t ts,
    rfl, rfl, rfl, rfl, rfl, ?_⟩
  · intro x hx
    rcases List.mem_cons.1 hx with hx | hx
    · exact hx ▸ Bench.foldl_min_le_init t ts
    · exact Bench.foldl_min_le_mem t ts x hx
  · intro x hx
    rcases List.mem_cons.1 hx with hx | hx
    · exact hx ▸ Bench.foldl_max_init_le t ts
    · exact Bench.mem_le_foldl_max t ts x hx
  · show lookupKey (Bench.measurementDict (t :: ts) ++
      [("note", .jstr "Using getblockhash as proxy for SHA256 operations")])
      "median_ms" = none
    rfl

/-- Witness for C6 at the concrete sample list `[3, 1, 2]`: the mean is
2, bracketed by the minimum and the maximum. -/
theorem C6_reduction_mean_min_max_witness :
    lookupKey (Bench.measurementDict [3, 1, 2]) "mean_ms" =
      some (.jnum 2) ∧
    Bench.listMin 3 [1, 2] ≤ Bench.listMean [3, 1, 2] ∧
    Bench.listMean [3, 1, 2] ≤ Bench.listMax 3 [1, 2] ∧
    Bench.listMin 3 [1, 2] ≤ 1 := by
  obtain ⟨h1, _, _, _, h5, _, _, h8, h9, _⟩ :=
    C6_reduction_mean_min_max 3 [1, 2]
  refine ⟨?_, h8, h9, h5 1 (by norm_num)⟩
  rw [h1]
  norm_num

end BlvmCommons

namespace BlvmCommons

open CompareEngine

/-- C5: whenever both means are present and positive for the
transaction-validation comparison, the emitted record has
`ratio = B.mean_ms / A.mean_ms` and
`faster = A if A.mean_ms < B.mean_ms else B`. -/
theorem C5_ratio_and_faster (b : BtcdResults) (core : CoreResults)
    (cp : List (String × AStats)) (a : AStats)
    (bs : List (String × CoreStat)) (ct : CoreStat) (am m : ℚ)
    (h1 : b.consensus_proof = some cp)
    (h2 : lookupKey cp "check_transaction" = some a)
    (h3 : a.mean_ms = some am) (h4 : 0 < am)
    (h5 : core.benchmarks = some bs)
    (h6 : lookupKey bs "transaction_validation" = some ct)
    (h7 : ct.mean_ms = some m) (h8 : 0 < m) :
    lookupKey (compare_common_metrics b core) "transaction_validation" =
      some (fullRecord a m none) ∧
    (fullRecord a m none).ratio = some (m / am) ∧
    (fullRecord a m none).faster =
      some (if am < m then "BTCDecoded" else "Bitcoin Core") := by
  have hmean : a.getMeanMs = am := by
    unfold AStats.getMeanMs
    rw [h3]
    rfl
  have htx : txComparison cp core =
      [("transaction_validation", fullRecord a m none)] := by
    unfold txComparison coreBenchMean
    simp only [h2, h5, h6, h7]
  refine ⟨?_, ?_, ?_⟩
  · unfold compare_common_metrics
    simp only [h1]
    rw [htx]
    rfl
  · unfold fullRecord
    rw [hmean, if_pos h4]
  · unfold fullRecord
    rw [hmean]

/-- Witness for C5: with A.mean_ms = 2 and B.mean_ms = 4 the ratio is 2
and BTCDecoded is reported faster. -/
theorem C5_ratio_and_faster_witness :
    lookupKey
        (compare_common_metrics
          ⟨some [("check_transaction", ⟨some 2, some 2000000, some 500⟩)]⟩
          ⟨some [("transaction_validation", ⟨some 4⟩)]⟩)
        "transaction_validation" =
      some (fullRecord ⟨some 2, some 2000000, some 500⟩ 4 none) ∧
    (fullRecord (⟨some 2, some 2000000, some 500⟩ : AStats) 4 none).ratio =
      some 2 ∧
    (fullRecord (⟨some 2, some 2000000, some 500⟩ : AStats) 4 none).faster =
      some "BTCDecoded" := by
  obtain ⟨h1, h2, h3⟩ :=
    C5_ratio_and_faster
      ⟨some [("check_transaction", ⟨some 2, some 2000000, some 500⟩)]⟩
      ⟨some [("transaction_validation", ⟨some 4⟩)]⟩
      [("check_transaction", ⟨some 2, some 2000000, some 500⟩)]
      ⟨some 2, some 2000000, some 500⟩
      [("transaction_validation", ⟨some 4⟩)] ⟨some 4⟩ 2 4
      rfl rfl rfl (by norm_num) rfl rfl rfl (by norm_num)
  refine ⟨h1, ?_, ?_⟩
  · rw [h2]
    norm_num
  · rw [h3]
    norm_num

end BlvmCommons

namespace BlvmCommons

open CompareEngine

theorem lookupKey_singleton_ne {α : Type} {k1 k : String} (v : α)
    (h : ¬ k1 = k) : lookupKey [(k1, v)] k = none := by
  simp [lookupKey, h]

theorem txComparison_lookup_other {cp : List (String × AStats)}
    {core : CoreResults} {k : String} (hk : ¬ "transaction_validation" = k) :
    lookupKey (txComparison cp core) k = none := by
  unfold txComparison
  split
  · rfl
  · split
    · rfl
    · exact lookupKey_singleton_ne _ hk

theorem hashComparison_lookup_other {cp : List (String × AStats)}
    {core : CoreResults} {k : String} (hk : ¬ "hash_operations" = k) :
    lookupKey (hashComparison cp core) k = none := by
  unfold hashComparison
  split
  · rfl
  · split
    · rfl
    · exact lookupKey_singleton_ne _ hk

theorem blockComparisonFor_lookup_other {cp : List (String × AStats)}
    {core : CoreResults} {bk k : String}
    (hk : ¬ "block_validation_" ++ bk = k) :
    lookupKey (blockComparisonFor cp core bk) k = none := by
  unfold blockComparisonFor
  split
  · rfl
  · split
    · split
      · split
        · exact lookupKey_singleton_ne _ hk
        · rfl
      · exact lookupKey_singleton_ne _ hk
    · exact lookupKey_singleton_ne _ hk

theorem blockComparisonFor_missing {cp : List (String × AStats)}
    {core : CoreResults} {k : String} {a : AStats}
    (ha : lookupKey cp k = some a)
    (hc : core.benchmarks = none ∨
      ∃ bs, core.benchmarks = some bs ∧ lookupKey bs "block_validation" = none) :
    blockComparisonFor cp core k =
      [("block_validation_" ++ k, aOnlyRecord a)] := by
  unfold blockComparisonFor
  simp only [ha]
  rcases hc with hc | ⟨bs, hbs, hnone⟩
  · simp only [hc]
  · simp only [hbs, hnone]

theorem coreBenchMean_none {core : CoreResults} {k : String}
    (hc : core.benchmarks = none ∨
      ∃ bs, core.benchmarks = some bs ∧ lookupKey bs k = none) :
    coreBenchMean core k = none := by
  unfold coreBenchMean
  rcases hc with hc | ⟨bs, hbs, hnone⟩
  · simp only [hc]
  · simp only [hbs, hnone]

/-- C1 counterexample: an A result set containing the hash-operations
benchmark with no Core counterpart yields no `hash_operations`
comparison record at all (the comparison output is empty). -/
theorem C1_missing_hash_record_counterexample :
    lookupKey [("sha256_1kb", (⟨some 2, some 2000000, some 500⟩ : AStats))]
        "sha256_1kb" = some ⟨some 2, some 2000000, some 500⟩ ∧
    (⟨none⟩ : CoreResults).benchmarks = none ∧
    compare_common_metrics
        ⟨some [("sha256_1kb", ⟨some 2, some 2000000, some 500⟩)]⟩ ⟨none⟩ = [] ∧
    lookupKey
        (compare_common_metrics
          ⟨some [("sha256_1kb", ⟨some 2, some 2000000, some 500⟩)]⟩ ⟨none⟩)
        "hash_operations" = none := by
  exact ⟨rfl, rfl, rfl, rfl⟩

/-- C1 (amended): when Core lacks the counterpart benchmark, only the
block-validation variants degrade gracefully — their records carry only
BTCDecoded data plus a non-empty note — while the transaction-validation
and hash-operations records are omitted entirely (the comparison still
never raises, being a total function here). -/
theorem C1_asymmetric_coverage (cp : List (String × AStats))
    (core : CoreResults) (a ah : AStats)
    (ha : lookupKey cp "connect_block" = some a)
    (hh : lookupKey cp "sha256_1kb" = some ah)
    (hc : core.benchmarks = none ∨
      ∃ bs, core.benchmarks = some bs ∧
        lookupKey bs "block_validation" = none ∧
        lookupKey bs "hash_operations" = none) :
    lookupKey (compare_common_metrics ⟨some cp⟩ core)
        "block_validation_connect_block" = some (aOnlyRecord a) ∧
    (aOnlyRecord a).core_ms = none ∧
    (aOnlyRecord a).btdcoded_ms = a.getMeanMs ∧
    (aOnlyRecord a).note = some "Core benchmark not available for comparison" ∧
    "Core benchmark not available for comparison" ≠ "" ∧
    lookupKey (compare_common_metrics ⟨some cp⟩ core) "hash_operations" =
      none := by
  have hcb : core.benchmarks = none ∨
      ∃ bs, core.benchmarks = some bs ∧ lookupKey bs "block_validation" = none := by
    rcases hc with hc | ⟨bs, hbs, hb, _⟩
    · exact Or.inl hc
    · exact Or.inr ⟨bs, hbs, hb⟩
  have hch : core.benchmarks = none ∨
      ∃ bs, core.benchmarks = some bs ∧ lookupKey bs "hash_operations" = none := by
    rcases hc with hc | ⟨bs, hbs, _, hh2⟩
    · exact Or.inl hc
    · exact Or.inr ⟨bs, hbs, hh2⟩
  have hcmp : compare_common_metrics ⟨some cp⟩ core =
      txComparison cp core ++ hashComparison cp core ++
        (blockComparisonFor cp core "connect_block" ++
          blockComparisonFor cp core "connect_block_multi_tx") := rfl
  refine ⟨?_, rfl, rfl, rfl, by decide, ?_⟩
  · rw [hcmp, List.append_assoc]
    rw [lookupKey_append_none _ (txComparison_lookup_other (by decide))]
    rw [lookupKey_append_none _ (hashComparison_lookup_other (by decide))]
    rw [blockComparisonFor_missing ha hcb]
    rfl
  · rw [hcmp, List.append_assoc]
    rw [lookupKey_append_none _ (txComparison_lookup_other (by decide))]
    have hhash : hashComparison cp core = [] := by
      unfold hashComparison
      simp only [hh]
      rw [coreBenchMean_none hch]
    rw [lookupKey_append_none _ (by rw [hhash]; rfl)]
    rw [lookupKey_append_none _ (blockComparisonFor_lookup_other (by decide))]
    exact blockComparisonFor_lookup_other (by decide)

/-- Witness for C1 at a concrete A export and an empty Core export. -/
theorem C1_asymmetric_coverage_witness :
    lookupKey
        (compare_common_metrics
          ⟨some [("sha256_1kb", ⟨some 3, some 3000000, none⟩),
                 ("connect_block", ⟨some 5, some 5000000, some 200⟩)]⟩
          ⟨none⟩)
        "block_validation_connect_block" =
      some (aOnlyRecord ⟨some 5, some 5000000, some 200⟩) ∧
    (aOnlyRecord (⟨some 5, some 5000000, some 200⟩ : AStats)).note =
      some "Core benchmark not available for comparison" ∧
    lookupKey
        (compare_common_metrics
          ⟨some [("sha256_1kb", ⟨some 3, some 3000000, none⟩),
                 ("connect_block", ⟨some 5, some 5000000, some 200⟩)]⟩
          ⟨none⟩)
        "hash_operations" = none := by
  obtain ⟨h1, _, _, h4, _, h6⟩ :=
    C1_asymmetric_coverage
      [("sha256_1kb", ⟨some 3, some 3000000, none⟩),
       ("connect_block", ⟨some 5, some 5000000, some 200⟩)]
      ⟨none⟩ ⟨some 5, some 5000000, some 200⟩ ⟨some 3, some 3000000, none⟩
      (by simp [lookupKey]) (by simp [lookupKey]) (Or.inl rfl)
  exact ⟨h1, h4, h6⟩

end BlvmCommons

namespace BlvmCommons

open CompareEngine

/-- C3 counterexample: with a BTCDecoded stat whose `mean_ms` is 0 and
whose throughput is absent, the emitted transaction-validation record
zero-fills `btdcoded_throughput`, writes the sentinel `ratio = 0`, and
still carries `faster` — so optional fields are not omitted when the
source data lacks them. -/
theorem C3_zero_fill_counterexample :
    (⟨some 0, some 0, none⟩ : AStats).throughput_ops_per_sec = none ∧
    (⟨some 0, some 0, none⟩ : AStats).mean_ms = some 0 ∧
    lookupKey
        (compare_common_metrics
          ⟨some [("check_transaction", ⟨some 0, some 0, none⟩)]⟩
          ⟨some [("transaction_validation", ⟨some 5⟩)]⟩)
        "transaction_validation" =
      some { btdcoded_ms := 0, core_ms := some 5, ratio := some 0,
             faster := some "BTCDecoded", btdcoded_throughput := some 0,
             note := none } := by
  refine ⟨rfl, rfl, ?_⟩
  show some (fullRecord ⟨some 0, some 0, none⟩ 5 none) = _
  unfold fullRecord AStats.getMeanMs AStats.getThroughput
  norm_num

/-- C3 (amended): in the export records, `mean_ms` is always present and
the optional fields mirror the parsed values, omitted exactly when the
source lacked them; but in every emitted comparison record, `ratio`,
`faster` and `btdcoded_throughput` are always written: `ratio` is the
sentinel 0 when the BTCDecoded mean is not strictly positive, and
`btdcoded_throughput` is zero-filled when the source throughput is
absent. -/
theorem C3_field_fill_behaviour :
    (∀ (name : String) (e : Export.EStats),
        (Export.toCoreFormat name e).2.mean_ms = e.mean_ms ∧
        (Export.toCoreFormat name e).2.min_ms = e.min_ms ∧
        (Export.toCoreFormat name e).2.max_ms = e.max_ms ∧
        (Export.toCoreFormat name e).2.throughput_ops_per_sec =
          e.throughput_ops_per_sec) ∧
    (∀ (a : AStats) (m : ℚ) (note : Option String),
        (fullRecord a m note).ratio =
          some (if a.getMeanMs > 0 then m / a.getMeanMs else 0) ∧
        (fullRecord a m note).faster.isSome = true ∧
        (fullRecord a m note).btdcoded_throughput = some a.getThroughput ∧
        (a.throughput_ops_per_sec = none →
          (fullRecord a m note).btdcoded_throughput = some 0) ∧
        (a.mean_ms = some 0 → (fullRecord a m note).ratio = some 0)) := by
  refine ⟨fun name e => ⟨rfl, rfl, rfl, rfl⟩,
    fun a m note => ⟨rfl, rfl, rfl, fun h => ?_, fun h => ?_⟩⟩
  · show some a.getThroughput = some 0
    unfold AStats.getThroughput
    rw [h]
    rfl
  · show some (if a.getMeanMs > 0 then m / a.getMeanMs else 0) = some 0
    unfold AStats.getMeanMs
    rw [h]
    norm_num

/-- Witness for C3 at a concrete export stat lacking min/max and a
concrete zero-mean BTCDecoded stat lacking throughput. -/
theorem C3_field_fill_behaviour_witness :
    (Export.toCoreFormat "check_transaction"
        ⟨2, 2000000, none, none, none, some 500⟩).2.min_ms = none ∧
    (fullRecord (⟨some 0, some 0, none⟩ : AStats) 5 none).btdcoded_throughput =
      some 0 ∧
    (fullRecord (⟨some 0, some 0, none⟩ : AStats) 5 none).ratio = some 0 := by
  obtain ⟨he, hr⟩ := C3_field_fill_behaviour
  obtain ⟨_, hmin, _, _⟩ :=
    he "check_transaction" ⟨2, 2000000, none, none, none, some 500⟩
  obtain ⟨_, _, _, hz, hq⟩ := hr ⟨some 0, some 0, none⟩ 5 none
  exact ⟨hmin, hz rfl, hq rfl⟩

end BlvmCommons

namespace BlvmCommons

/-- C4: every CanonicalStat either parser produces from a
statistics-report entry satisfies the throughput rule: when the mean
point estimate `mean_ns` is positive, `throughput_ops_per_sec` is
present and equals `1e9 / mean_ns`, which is exactly `1000 / mean_ms`;
when `mean_ns` is zero or negative, the throughput field is absent. -/
theorem C4_throughput_rule (input : Option JVal) (name : String) :
    (∀ st : Compare.CStats,
       lookupKey (Compare.parse_criterion_results input) name = some st →
       (0 < st.mean_ns →
          st.throughput_ops_per_sec = some (1000000000 / st.mean_ns) ∧
          st.throughput_ops_per_sec = some (1000 / st.mean_ms)) ∧
       (st.mean_ns ≤ 0 → st.throughput_ops_per_sec = none)) ∧
    (∀ est : Export.EStats,
       lookupKey (Export.parse_criterion_results input) name = some est →
       (0 < est.mean_ns →
          est.throughput_ops_per_sec = some (1000000000 / est.mean_ns) ∧
          est.throughput_ops_per_sec = some (1000 / est.mean_ms)) ∧
       (est.mean_ns ≤ 0 → est.throughput_ops_per_sec = none)) := by
  constructor
  · intro st h
    obtain ⟨hms, hpos, hneg⟩ :=
      runParse_inv
        (fun st : Compare.CStats =>
          st.mean_ms = st.mean_ns / 1000000 ∧
          (0 < st.mean_ns →
            st.throughput_ops_per_sec = some (1000000000 / st.mean_ns)) ∧
          (st.mean_ns ≤ 0 → st.throughput_ops_per_sec = none))
        (fun _ _ hpe => compare_parseEntry_throughput hpe) h
    refine ⟨fun h0 => ⟨hpos h0, ?_⟩, hneg⟩
    rw [hpos h0, hms, div_div_eq_mul_div]
    norm_num
  · intro est h
    obtain ⟨hms, hpos, hneg⟩ :=
      runParse_inv
        (fun st : Export.EStats =>
          st.mean_ms = st.mean_ns / 1000000 ∧
          (0 < st.mean_ns →
            st.throughput_ops_per_sec = some (1000000000 / st.mean_ns)) ∧
          (st.mean_ns ≤ 0 → st.throughput_ops_per_sec = none))
        (fun _ _ hpe => export_parseEntry_throughput hpe) h
    refine ⟨fun h0 => ⟨hpos h0, ?_⟩, hneg⟩
    rw [hpos h0, hms, div_div_eq_mul_div]
    norm_num

/-- Witness for C4 on a concrete one-entry report with
`mean_ns = 2000000`: both parsers emit throughput 500 ops/sec. -/
theorem C4_throughput_rule_witness :
    (⟨2000000, 2, none, none, none, none, none, none, none, none,
        some 500, none⟩ : Compare.CStats).throughput_ops_per_sec =
      some 500 ∧
    (⟨2, 2000000, none, none, none, some 500⟩ :
        Export.EStats).throughput_ops_per_sec = some 500 := by
  obtain ⟨h1, h2⟩ :=
    C4_throughput_rule
      (some (.jobj [("b",
        .jobj [("mean", .jobj [("point_estimate", .jnum 2000000)])])]))
      "b"
  have hc := h1
    ⟨2000000, 2, none, none, none, none, none, none, none, none,
      some 500, none⟩
    (by norm_num [Compare.parse_criterion_results, runParse, parseStep,
      Compare.parseEntry, pyContains, pyGet, pyToNum, pyDictGet,
      Compare.optNumField, lookupKey, dictSet])
  have he := h2 ⟨2, 2000000, none, none, none, some 500⟩
    (by norm_num [Export.parse_criterion_results, runParse, parseStep,
      Export.parseEntry, pyContains, pyGet, pyToNum, pyDictGet,
      Compare.optNumField, lookupKey, dictSet])
  constructor
  · rw [(hc.1 (by norm_num)).1]
    norm_num
  · rw [(he.1 (by norm_num)).1]
    norm_num

end BlvmCommons

namespace BlvmCommons

/-- C7: an entry whose object lacks a `mean` key, or whose `mean` object
lacks `point_estimate`, is skipped while the remaining entries are still
parsed; an unreadable file or a non-object top level yields the empty
result set (after a logged warning) instead of an exception; and the
concrete report with one well-formed entry and one entry missing
`mean.point_estimate` yields exactly one result. -/
theorem C7_partial_report_parsing :
    (∀ (pre post : List (String × JVal)) (name : String)
       (fs : List (String × JVal)),
        lookupKey fs "mean" = none →
        Compare.parse_criterion_results
            (some (.jobj (pre ++ (name, .jobj fs) :: post))) =
          Compare.parse_criterion_results (some (.jobj (pre ++ post)))) ∧
    (∀ (pre post : List (String × JVal)) (name : String)
       (fs ms : List (String × JVal)),
        lookupKey fs "mean" = some (.jobj ms) →
        lookupKey ms "point_estimate" = none →
        Compare.parse_criterion_results
            (some (.jobj (pre ++ (name, .jobj fs) :: post))) =
          Compare.parse_criterion_results (some (.jobj (pre ++ post)))) ∧
    Compare.parse_criterion_results none = [] ∧
    (∀ s : String, Compare.parse_criterion_results (some (.jstr s)) = []) ∧
    (Compare.parse_criterion_results
        (some (.jobj
          [("good", .jobj [("mean", .jobj [("point_estimate", .jnum 2000000)])]),
           ("bad", .jobj [("mean", .jobj [("estimate", .jnum 1)])])]))).length
      = 1 := by
  refine ⟨?_, ?_, rfl, fun s => rfl, ?_⟩
  · intro pre post name fs hf
    exact runParse_skip (compare_parseEntry_noMean hf) pre post
  · intro pre post name fs ms hm hp
    exact runParse_skip (compare_parseEntry_noPE hm hp) pre post
  · set_option maxHeartbeats 1000000 in
    simp [Compare.parse_criterion_results, runParse, parseStep,
      Compare.parseEntry, pyContains, pyGet, pyToNum, pyDictGet,
      Compare.optNumField, lookupKey, dictSet]

/-- Witness for C7: a concrete no-mean entry and a concrete
missing-point-estimate entry are both skipped while the well-formed
sibling entry is still parsed. -/
theorem C7_partial_report_parsing_witness :
    Compare.parse_criterion_results
        (some (.jobj
          [("bad1", .jobj [("other", .jnum 7)]),
           ("good", .jobj [("mean", .jobj [("point_estimate", .jnum 2000000)])])])) =
      Compare.parse_criterion_results
        (some (.jobj
          [("good",
            .jobj [("mean", .jobj [("point_estimate", .jnum 2000000)])])])) ∧
    Compare.parse_criterion_results
        (some (.jobj
          [("bad2", .jobj [("mean", .jobj [("estimate", .jnum 1)])]),
           ("good", .jobj [("mean", .jobj [("point_estimate", .jnum 2000000)])])])) =
      Compare.parse_criterion_results
        (some (.jobj
          [("good",
            .jobj [("mean", .jobj [("point_estimate", .jnum 2000000)])])])) := by
  obtain ⟨h1, h2, _, _, _⟩ := C7_partial_report_parsing
  exact ⟨h1 [] [("good", .jobj [("mean", .jobj [("point_estimate", .jnum 2000000)])])]
      "bad1" [("other", .jnum 7)] rfl,
    h2 [] [("good", .jobj [("mean", .jobj [("point_estimate", .jnum 2000000)])])]
      "bad2" [("mean", .jobj [("estimate", .jnum 1)])] [("estimate", .jnum 1)]
      rfl rfl⟩

/-- C10: if any entry of the statistics report maps a benchmark name to
a non-container value (a number, boolean or null), the membership test
raises and the whole-file exception handler discards every entry: both
parsers return the empty result set for the entire file. -/
theorem C10_scalar_entry_empties_file (entries : List (String × JVal))
    (name : String) (bd : JVal)
    (hmem : (name, bd) ∈ entries)
    (hsc : bd = .jnull ∨ (∃ q, bd = .jnum q) ∨ (∃ b, bd = .jbool b)) :
    Compare.parse_criterion_results (some (.jobj entries)) = [] ∧
    Export.parse_criterion_results (some (.jobj entries)) = [] := by
  obtain ⟨pe1, h1⟩ := compare_parseEntry_scalar hsc
  obtain ⟨pe2, h2⟩ := export_parseEntry_scalar hsc
  exact ⟨runParse_empty_of_err hmem h1, runParse_empty_of_err hmem h2⟩

/-- Witness for C10: a report with one well-formed entry and one numeric
entry parses to the empty result set in both parsers. -/
theorem C10_scalar_entry_empties_file_witness :
    Compare.parse_criterion_results
        (some (.jobj
          [("good", .jobj [("mean", .jobj [("point_estimate", .jnum 2000000)])]),
           ("oops", .jnum 3)])) = [] ∧
    Export.parse_criterion_results
        (some (.jobj
          [("good", .jobj [("mean", .jobj [("point_estimate", .jnum 2000000)])]),
           ("oops", .jnum 3)])) = [] := by
  exact C10_scalar_entry_empties_file
    [("good", .jobj [("mean", .jobj [("point_estimate", .jnum 2000000)])]),
     ("oops", .jnum 3)]
    "oops" (.jnum 3) (by simp) (Or.inr (Or.inl ⟨3, rfl⟩))

end BlvmCommons
